import Mathlib

/-!
Verification development for the SMSReminders repository: a shallow embedding
of the agent orchestration engine (agent loop, reminder tools, conversation
store) and the periodic reminder delivery scheduler, together with theorems
settling the specification claims.

Modelling conventions:
* instants (`Date` values) are naturals (`Time`), compared with the usual order;
* MongoDB `ObjectId`s are naturals;
* a Mongo collection is a list of documents in insertion order; `findOne`
  returns the first match and `findOneAndUpdate`/`updateOne` rewrites the
  first match in place;
* `JSON.stringify` renderings of tool payloads are abstracted to short plain
  strings carrying the same message text: no claim depends on the JSON shape;
* the language model (Completion Client) is an oracle function from the
  message list to the gathered reply of one round.
-/

abbrev Time := Nat

/-- E.164 check mirroring the zod regex `^\+[1-9]\d{1,14}$` used by the
`Reminder`, `User` and `Conversation` schemas. -/
def isValidE164 (s : String) : Bool :=
  match s.data with
  | '+' :: c :: rest =>
      decide ('1' ≤ c ∧ c ≤ '9') &&
        rest.all (fun d => decide ('0' ≤ d ∧ d ≤ '9')) &&
        decide (1 ≤ rest.length ∧ rest.length ≤ 14)
  | _ => false

/-! ## DateValidator (src/utils/DateValidator.ts)

`new Date(string)` is modelled by its outcome: `none` when the string does not
parse (`isNaN(date.getTime())`), `some t` when it parses to instant `t`. -/

namespace DateValidator

def validateISODate (parsed : Option Time) : Except String Time :=
  match parsed with
  | none => .error "Invalid date format"
  | some d => .ok d

def isFutureDate (date : Time) (currentTime : Time) : Bool :=
  decide (currentTime < date)

def validateFutureISODate (parsed : Option Time) (currentTime : Time) :
    Except String Time :=
  match validateISODate parsed with
  | .error e => .error e
  | .ok d =>
      if isFutureDate d currentTime then .ok d
      else .error "Reminder date must be in the future"

end DateValidator

/-! ## Reminder model (src/models/Reminder.ts) -/

inductive ReminderStatus
  | pending
  | sent
  | cancelled
deriving DecidableEq, Repr

structure Reminder where
  id : Nat
  userId : Nat
  conversationId : Nat
  phoneNumber : String
  title : String
  description : Option String
  scheduledFor : Time
  status : ReminderStatus
  createdAt : Time
  updatedAt : Time
deriving DecidableEq, Repr

/-- The zod `ReminderSchema` checks performed by the `Reminder` constructor. -/
def Reminder.validB (r : Reminder) : Bool :=
  isValidE164 r.phoneNumber &&
    decide (1 ≤ r.title.length ∧ r.title.length ≤ 200) &&
    (match r.description with
      | some d => decide (d.length ≤ 1000)
      | none => true)

def Reminder.isPending (r : Reminder) : Bool :=
  r.status == ReminderStatus.pending

def Reminder.isDue (r : Reminder) (currentTime : Time) : Bool :=
  r.isPending && decide (r.scheduledFor ≤ currentTime)

/-! ## Keyed-list helpers: Mongo `findOne` / first-match update semantics -/

def findByKey {α : Type} (key : α → Nat) : List α → Nat → Option α
  | [], _ => none
  | x :: rest, q => if key x == q then some x else findByKey key rest q

def replaceFirst {α : Type} (key : α → Nat) : List α → Nat → (α → α) → List α
  | [], _, _ => []
  | x :: rest, q, f =>
      if key x == q then f x :: rest else x :: replaceFirst key rest q f

/-! ## ReminderRepository (src/repositories/ReminderRepository.ts) -/

abbrev ReminderStore := List Reminder

/-- The `Partial<Reminder>` update payloads the repository receives: only these
four fields are ever set by callers (`$set` also always refreshes `updatedAt`). -/
structure ReminderUpdateData where
  title : Option String := none
  description : Option String := none
  scheduledFor : Option Time := none
  status : Option ReminderStatus := none
deriving DecidableEq, Repr

def applyReminderUpdate (r : Reminder) (d : ReminderUpdateData) (now : Time) :
    Reminder :=
  { r with
    title := d.title.getD r.title
    description := match d.description with
      | some s => some s
      | none => r.description
    scheduledFor := d.scheduledFor.getD r.scheduledFor
    status := d.status.getD r.status
    updatedAt := now }

namespace ReminderRepository

def findById (st : ReminderStore) (id : Nat) : Option Reminder :=
  findByKey Reminder.id st id

/-- `insertOne`; the driver-generated `_id` is the model's `r.id`. -/
def create (st : ReminderStore) (r : Reminder) (now : Time) :
    ReminderStore × Reminder :=
  let r' := { r with updatedAt := now }
  (st ++ [r'], r')

def update (st : ReminderStore) (id : Nat) (d : ReminderUpdateData)
    (now : Time) : ReminderStore × Option Reminder :=
  match findById st id with
  | none => (st, none)
  | some r =>
      (replaceFirst Reminder.id st id (fun x => applyReminderUpdate x d now),
        some (applyReminderUpdate r d now))

def findByUserId (st : ReminderStore) (userId : Nat) : List Reminder :=
  st.filter (fun r => r.userId == userId)

def findDueReminders (st : ReminderStore) (currentTime : Time) :
    List Reminder :=
  st.filter (fun r => r.isDue currentTime)

def updateStatus (st : ReminderStore) (id : Nat) (status : ReminderStatus)
    (now : Time) : ReminderStore × Option Reminder :=
  update st id { status := some status } now

def markAsSent (st : ReminderStore) (id : Nat) (now : Time) :
    ReminderStore × Option Reminder :=
  updateStatus st id ReminderStatus.sent now

def cancelReminder (st : ReminderStore) (id : Nat) (now : Time) :
    ReminderStore × Option Reminder :=
  updateStatus st id ReminderStatus.cancelled now

end ReminderRepository

/-! ## ReminderScheduler (src/services/ReminderScheduler.ts)

The Twilio send is an oracle `sendSMS : phoneNumber → text → Bool`; `false`
models a thrown send error (caught per item by `checkAndSendReminders`). -/

structure SendAttempt where
  phoneNumber : String
  message : String
  ok : Bool
deriving DecidableEq, Repr

namespace ReminderScheduler

/-- `Date#toLocaleString`, abstracted to the numeric rendering of the instant. -/
def dateToLocaleString (t : Time) : String := toString t

def formatReminderMessage (r : Reminder) : String :=
  let base := "🔔 Reminder: " ++ r.title
  let withDesc := match r.description with
    | some d => if d ≠ "" then base ++ "\n\n" ++ d else base
    | none => base
  withDesc ++ "\n\nScheduled for: " ++ dateToLocaleString r.scheduledFor

/-- One `sendReminder` call: send the SMS, and only on success mark the
reminder sent; a send failure leaves the store untouched. -/
def sendReminder (sendSMS : String → String → Bool) (st : ReminderStore)
    (now : Time) (r : Reminder) : ReminderStore × Bool :=
  if sendSMS r.phoneNumber (formatReminderMessage r) then
    ((ReminderRepository.markAsSent st r.id now).1, true)
  else
    (st, false)

/-- One scheduler tick: query the due reminders once, then process each in
order, catching per-item failures; returns the new store and the log of send
attempts. -/
def checkAndSendReminders (sendSMS : String → String → Bool)
    (st : ReminderStore) (now : Time) : ReminderStore × List SendAttempt :=
  let dueReminders := ReminderRepository.findDueReminders st now
  dueReminders.foldl
    (fun acc r =>
      let step := sendReminder sendSMS acc.1 now r
      (step.1, acc.2 ++ [⟨r.phoneNumber, formatReminderMessage r, step.2⟩]))
    (st, [])

end ReminderScheduler

/-! ## Conversation model (src/models/Conversation.ts) -/

inductive Role
  | user
  | assistant
  | system
deriving DecidableEq, Repr

structure Message where
  role : Role
  content : String
  timestamp : Time
deriving DecidableEq, Repr

structure Conversation where
  id : Nat
  userId : Nat
  phoneNumber : Option String
  title : String
  messages : List Message
  createdAt : Time
  updatedAt : Time
  lastMessageAt : Time
deriving DecidableEq, Repr

namespace Conversation

/-- The zod `ConversationSchema` checks performed by the constructor. -/
def validB (c : Conversation) : Bool :=
  decide (1 ≤ c.title.length ∧ c.title.length ≤ 200) &&
    (match c.phoneNumber with
      | some p => isValidE164 p
      | none => true)

/-- `generateTitle`: first 50 characters of the first line
(`firstMessage.split('\n')[0].substring(0, 50)`), with an ellipsis appended
when that title is shorter than the whole message. -/
def generateTitle (firstMessage : String) : String :=
  let firstLine := firstMessage.data.takeWhile (fun ch => ch ≠ '\n')
  let title := firstLine.take 50
  if title.length < firstMessage.data.length then
    String.mk (title ++ "...".data)
  else
    String.mk title

/-- `addMessage`: push the message, refresh `lastMessageAt`/`updatedAt`, and
set the title from the first user message. -/
def addMessage (c : Conversation) (role : Role) (content : String)
    (now : Time) : Conversation :=
  let msgs := c.messages ++ [⟨role, content, now⟩]
  let base := { c with messages := msgs, lastMessageAt := now, updatedAt := now }
  if msgs.length = 1 ∧ role = Role.user then
    { base with title := generateTitle content }
  else
    base

def getFormattedHistory (c : Conversation) : List (Role × String) :=
  c.messages.map (fun m => (m.role, m.content))

end Conversation

/-! ## ConversationRepository (src/repositories/ConversationRepository.ts) -/

abbrev ConversationStore := List Conversation

namespace ConversationRepository

def findById (store : ConversationStore) (id : Nat) : Option Conversation :=
  findByKey Conversation.id store id

def findByPhoneNumber (store : ConversationStore) (phoneNumber : String) :
    Option Conversation :=
  store.find? (fun c => c.phoneNumber == some phoneNumber)

/-- `insertOne` after `updateTimestamp()`. -/
def create (store : ConversationStore) (c : Conversation) (now : Time) :
    ConversationStore × Conversation :=
  let c' := { c with updatedAt := now }
  (store ++ [c'], c')

/-- `appendMessage`: re-load the conversation by id, mutate the fresh copy
with `addMessage`, and persist its messages/title/lastMessageAt/updatedAt
with `updateOne`+`$set`. Returns the fresh mutated copy (`none` models the
warn-and-return-null path when the id is unknown). -/
def appendMessage (store : ConversationStore) (id : Nat) (role : Role)
    (content : String) (now : Time) : ConversationStore × Option Conversation :=
  match findById store id with
  | none => (store, none)
  | some c =>
      let c' := c.addMessage role content now
      (replaceFirst Conversation.id store id
        (fun x =>
          { x with
            messages := c'.messages
            title := c'.title
            lastMessageAt := c'.lastMessageAt
            updatedAt := c'.updatedAt }),
        some c')

/-- `getOrCreateForUser`: when a (truthy, hence nonempty) phone number is
given and a conversation with that phone number exists, return it as-is;
otherwise construct and insert a fresh conversation. The `none` result models
the constructor throwing when the new document fails schema validation. -/
def getOrCreateForUser (store : ConversationStore) (userId : Nat)
    (phoneNumber : Option String) (freshId : Nat) (now : Time) :
    Option (ConversationStore × Conversation) :=
  let looked :=
    match phoneNumber with
    | some p => if p = "" then none else findByPhoneNumber store p
    | none => none
  match looked with
  | some existing => some (store, existing)
  | none =>
      let c : Conversation :=
        { id := freshId, userId := userId, phoneNumber := phoneNumber
          title := "New Conversation", messages := []
          createdAt := now, updatedAt := now, lastMessageAt := now }
      if c.validB then some (create store c now) else none

end ConversationRepository

/-! ## Tool registry (src/agent/tools/ReminderTools.ts)

Each tool is a `DynamicStructuredTool`: `invoke` first parses the arguments
against the zod schema (a parse failure throws, modelled by
`ToolResult.thrown`, which the agent loop catches and surfaces as an
`Error: ...` output), then runs the tool function, whose own try/catch turns
every internal error into a structured `success: false` payload. -/

structure ToolContext where
  userId : Nat
  conversationId : Nat
  phoneNumber : String
deriving DecidableEq, Repr

inductive ToolResult
  | success (message : String)
  | failure (error : String)
  | thrown (message : String)
deriving DecidableEq, Repr

def ToolResult.isFailure : ToolResult → Bool
  | .success _ => false
  | .failure _ => true
  | .thrown _ => true

/-- Rendering of the tool output fed back to the model as a tool message
(abstraction of `JSON.stringify` and of the caught-throw `Error: ...` path). -/
def ToolResult.render : ToolResult → String
  | .success m => "success: true, message: " ++ m
  | .failure e => "success: false, error: " ++ e
  | .thrown m => "Error: " ++ m

/-- Arguments of `create_reminder`; `scheduledFor` is the outcome of
`new Date` on the supplied ISO string. -/
structure CreateReminderArgs where
  title : String
  description : Option String
  scheduledFor : Option Time
deriving DecidableEq, Repr

structure ListRemindersArgs where
  status : Option ReminderStatus
deriving DecidableEq, Repr

/-- Arguments of `update_reminder`; for `scheduledFor`, `none` means the field
was absent and `some parsed` carries the `new Date` outcome on the given
string. -/
structure UpdateReminderArgs where
  reminderId : Nat
  title : Option String
  description : Option String
  scheduledFor : Option (Option Time)
deriving DecidableEq, Repr

structure DeleteReminderArgs where
  reminderId : Nat
deriving DecidableEq, Repr

namespace ReminderTools

def statusText : ReminderStatus → String
  | .pending => "pending"
  | .sent => "sent"
  | .cancelled => "cancelled"

/-- Stable insertion used to model the repository's ascending
`sort (scheduledFor: 1)` on `findMany`. -/
def insertByTime (r : Reminder) : List Reminder → List Reminder
  | [] => [r]
  | x :: xs =>
      if r.scheduledFor < x.scheduledFor then r :: x :: xs
      else x :: insertByTime r xs

def sortByScheduledFor (rs : List Reminder) : List Reminder :=
  rs.foldr insertByTime []

/-- The `new Reminder(...)` document built by `create_reminder`. -/
def newReminder (ctx : ToolContext) (freshId : Nat)
    (args : CreateReminderArgs) (scheduledFor : Time) (now : Time) : Reminder :=
  { id := freshId, userId := ctx.userId
    conversationId := ctx.conversationId
    phoneNumber := ctx.phoneNumber
    title := args.title, description := args.description
    scheduledFor := scheduledFor, status := ReminderStatus.pending
    createdAt := now, updatedAt := now }

/-- `create_reminder`: zod-validate the arguments (title 1..200, description
up to 1000, `scheduledFor` parsing to a strictly future instant); on success
construct and persist a `pending` reminder, converting a constructor throw
into a structured failure. -/
def createReminderTool (ctx : ToolContext) (now : Time) (st : ReminderStore)
    (freshId : Nat) (args : CreateReminderArgs) : ReminderStore × ToolResult :=
  if ¬ (1 ≤ args.title.length ∧ args.title.length ≤ 200) then
    (st, .thrown "Invalid title")
  else if args.description.any (fun d => 1000 < d.length) then
    (st, .thrown "Invalid description")
  else
    match DateValidator.validateFutureISODate args.scheduledFor now with
    | .error e => (st, .thrown e)
    | .ok scheduledFor =>
        if (newReminder ctx freshId args scheduledFor now).validB then
          ((ReminderRepository.create st
              (newReminder ctx freshId args scheduledFor now) now).1,
            .success ("Reminder created successfully! A reminder \""
              ++ args.title ++ "\" is scheduled for "
              ++ ReminderScheduler.dateToLocaleString scheduledFor ++ "."))
        else
          (st, .failure "Failed to create reminder")

/-- `list_reminders`: all of the caller's reminders sorted by scheduled time
ascending (the repository sort), optionally filtered by status. -/
def listRemindersTool (ctx : ToolContext) (st : ReminderStore)
    (args : ListRemindersArgs) : ReminderStore × ToolResult :=
  let mine := ReminderRepository.findByUserId st ctx.userId
  let sorted := sortByScheduledFor mine
  let reminders : List Reminder :=
    match args.status with
    | some s => sorted.filter (fun r => r.status == s)
    | none => sorted
  if reminders.isEmpty then
    (st, .success (match args.status with
      | some s => "You do not have any " ++ statusText s ++ " reminders."
      | none => "You do not have any reminders yet."))
  else
    (st, .success ("Found " ++ toString reminders.length ++ " reminder(s)."))

/-- The zod parse of the optional `scheduledFor` argument of
`update_reminder`: absent is fine, present must parse to a strictly future
instant. -/
def parseUpdateSchedule (sched : Option (Option Time)) (now : Time) :
    Except String (Option Time) :=
  match sched with
  | none => .ok none
  | some parsed =>
      match DateValidator.validateFutureISODate parsed now with
      | .error e => .error e
      | .ok d => .ok (some d)

/-- The `updateData` record built by `update_reminder`: only the provided
fields, never the status. -/
def updateDataOf (args : UpdateReminderArgs) (scheduledFor : Option Time) :
    ReminderUpdateData :=
  { title := args.title, description := args.description
    scheduledFor := scheduledFor, status := none }

/-- `update_reminder`: zod-validate the optional fields, load by id, check
ownership, then apply only the provided fields. -/
def updateReminderTool (ctx : ToolContext) (now : Time) (st : ReminderStore)
    (args : UpdateReminderArgs) : ReminderStore × ToolResult :=
  if args.title.any (fun t => ¬ (1 ≤ t.length ∧ t.length ≤ 200)) then
    (st, .thrown "Invalid title")
  else if args.description.any (fun d => 1000 < d.length) then
    (st, .thrown "Invalid description")
  else
    match parseUpdateSchedule args.scheduledFor now with
    | .error e => (st, .thrown e)
    | .ok scheduledFor =>
        match ReminderRepository.findById st args.reminderId with
        | none => (st, .failure "Reminder not found.")
        | some existing =>
            if existing.userId ≠ ctx.userId then
              (st, .failure "You do not have permission to update this reminder.")
            else
              match ReminderRepository.update st args.reminderId
                  (updateDataOf args scheduledFor) now with
              | (_, none) => (st, .failure "Failed to update reminder.")
              | (st', some _) =>
                  (st', .success "Reminder updated successfully!")

/-- `delete_reminder`: load by id, check ownership, then soft-delete by
transitioning the status to cancelled. -/
def deleteReminderTool (ctx : ToolContext) (now : Time) (st : ReminderStore)
    (args : DeleteReminderArgs) : ReminderStore × ToolResult :=
  match ReminderRepository.findById st args.reminderId with
  | none => (st, .failure "Reminder not found.")
  | some existing =>
      if existing.userId ≠ ctx.userId then
        (st, .failure "You do not have permission to delete this reminder.")
      else
        ((ReminderRepository.cancelReminder st args.reminderId now).1,
          .success ("Reminder \"" ++ existing.title ++ "\" has been cancelled."))

end ReminderTools

/-! ## Agent loop (src/agent/AgentService.ts)

The Completion Client is an oracle. For the streaming interface the oracle
yields the whole gathered message of the round (`none` models an empty
stream, the `if (!gathered) break` path); the per-chunk `token` events do not
affect state and are not modelled. For the single-shot interface the oracle
yields the final message of the round. -/

inductive ToolArgs
  | createArgs (a : CreateReminderArgs)
  | listArgs (a : ListRemindersArgs)
  | updateArgs (a : UpdateReminderArgs)
  | deleteArgs (a : DeleteReminderArgs)
deriving DecidableEq, Repr

structure ToolCall where
  callId : String
  name : String
  args : ToolArgs
deriving DecidableEq, Repr

structure AIMsg where
  content : String
  toolCalls : List ToolCall
deriving DecidableEq, Repr

inductive ChatMsg
  | system (content : String)
  | human (content : String)
  | ai (msg : AIMsg)
  | tool (toolCallId : String) (content : String)
deriving DecidableEq, Repr

structure World where
  conversations : ConversationStore
  reminders : ReminderStore
  nextConversationId : Nat
  nextReminderId : Nat
deriving DecidableEq, Repr

namespace AgentService

/-- The static system instruction with the current wall-clock instant
injected (the long policy text is abridged: only its identity and the
injected instant matter to the claims). -/
def systemPrompt (now : Time) : String :=
  "You are a helpful AI assistant that helps users manage their reminders "
    ++ "via SMS and web chat. Today is " ++ toString now ++ "."

def getSystemMessage (now : Time) : ChatMsg :=
  ChatMsg.system (systemPrompt now)

/-- Execute one proposed tool call against the bound tool set
(`getAllTools(userId, conversationId, phoneNumber)`): `none` output means no
registered tool carries the proposed name, in which case the loop skips the
call entirely; a name/schema mismatch is a zod parse failure surfaced through
the catch in the loop as an `Error: ...` output. -/
def runTool (ctx : ToolContext) (now : Time) (w : World) (tc : ToolCall) :
    World × Option String :=
  if tc.name = "create_reminder" then
    match tc.args with
    | .createArgs a =>
        let out := ReminderTools.createReminderTool ctx now w.reminders
          w.nextReminderId a
        ({ w with reminders := out.1, nextReminderId := w.nextReminderId + 1 },
          some out.2.render)
    | _ => (w, some (ToolResult.thrown "Invalid arguments").render)
  else if tc.name = "list_reminders" then
    match tc.args with
    | .listArgs a =>
        let out := ReminderTools.listRemindersTool ctx w.reminders a
        ({ w with reminders := out.1 }, some out.2.render)
    | _ => (w, some (ToolResult.thrown "Invalid arguments").render)
  else if tc.name = "update_reminder" then
    match tc.args with
    | .updateArgs a =>
        let out := ReminderTools.updateReminderTool ctx now w.reminders a
        ({ w with reminders := out.1 }, some out.2.render)
    | _ => (w, some (ToolResult.thrown "Invalid arguments").render)
  else if tc.name = "delete_reminder" then
    match tc.args with
    | .deleteArgs a =>
        let out := ReminderTools.deleteReminderTool ctx now w.reminders a
        ({ w with reminders := out.1 }, some out.2.render)
    | _ => (w, some (ToolResult.thrown "Invalid arguments").render)
  else
    (w, none)

structure LoopState where
  world : World
  messages : List ChatMsg
  finalResponse : String
deriving Repr

/-- Dispatch one round's tool calls in proposal order, appending a tool
message tagged with the call id for every call whose tool exists. -/
def dispatchStep (ctx : ToolContext) (now : Time) (st : LoopState)
    (tc : ToolCall) : LoopState :=
  match runTool ctx now st.world tc with
  | (w', some output) =>
      { st with world := w'
                messages := st.messages ++ [ChatMsg.tool tc.callId output] }
  | (w', none) => { st with world := w' }

def dispatchToolCalls (ctx : ToolContext) (now : Time) (st : LoopState)
    (tcs : List ToolCall) : LoopState :=
  tcs.foldl (dispatchStep ctx now) st

/-- The streaming agent loop (`processMessageStream`'s `for` loop), bounded
by the iteration budget; returns the loop state and the number of completion
calls issued. -/
def agentLoopStream (llm : List ChatMsg → Option AIMsg) (ctx : ToolContext)
    (now : Time) : Nat → LoopState → Nat → LoopState × Nat
  | 0, st, calls => (st, calls)
  | fuel + 1, st, calls =>
      match llm st.messages with
      | none => (st, calls + 1)
      | some gathered =>
          let st' := { st with
            messages := st.messages ++ [ChatMsg.ai gathered]
            finalResponse := st.finalResponse ++ gathered.content }
          if gathered.toolCalls.isEmpty then
            (st', calls + 1)
          else
            agentLoopStream llm ctx now fuel
              (dispatchToolCalls ctx now { st' with finalResponse := "" }
                gathered.toolCalls)
              (calls + 1)

/-- The single-shot agent loop (`processMessage`'s `for` loop). -/
def agentLoop (llm : List ChatMsg → AIMsg) (ctx : ToolContext)
    (now : Time) : Nat → LoopState → Nat → LoopState × Nat
  | 0, st, calls => (st, calls)
  | fuel + 1, st, calls =>
      let response := llm st.messages
      let st' := { st with messages := st.messages ++ [ChatMsg.ai response] }
      if response.toolCalls.isEmpty then
        ({ st' with finalResponse := response.content }, calls + 1)
      else
        agentLoop llm ctx now fuel
          (dispatchToolCalls ctx now st' response.toolCalls)
          (calls + 1)

/-- Resolve the target conversation: by id when one is given (`none` models
the thrown `Conversation not found`), else get-or-create by user/phone. -/
def resolveConversation (w : World) (userId : Nat) (phoneNumber : String)
    (conversationId : Option Nat) (now : Time) :
    Option (World × Conversation) :=
  match conversationId with
  | some cid =>
      match ConversationRepository.findById w.conversations cid with
      | none => none
      | some c => some (w, c)
  | none =>
      match ConversationRepository.getOrCreateForUser w.conversations userId
          (some phoneNumber) w.nextConversationId now with
      | none => none
      | some (store', c) =>
          some ({ w with conversations := store'
                         nextConversationId := w.nextConversationId + 1 }, c)

/-- The prompt of the first round, exactly as the code builds it: the system
instruction, the formatted history of the in-memory `conversation` object
with its last entry sliced off (`history.slice(0, -1)`), then the new user
message. The in-memory object is the one obtained before `appendMessage`
ran (the repository re-fetches internally), so this history does not contain
the just-appended user message. -/
def initialMessages (conversation : Conversation) (message : String)
    (now : Time) : List ChatMsg :=
  getSystemMessage now ::
    (conversation.getFormattedHistory.dropLast.map (fun rc =>
      match rc.1 with
      | Role.user => ChatMsg.human rc.2
      | Role.assistant => ChatMsg.ai ⟨rc.2, []⟩
      | Role.system => ChatMsg.system rc.2))
    ++ [ChatMsg.human message]

/-- `processMessageStream`: resolve the conversation, append the user
message, run the streaming loop, and persist the assistant reply only when
the final text is nonempty. Returns the final world, the final text and the
number of completion calls. -/
def processMessageStream (llm : List ChatMsg → Option AIMsg) (w : World)
    (userId : Nat) (phoneNumber : String) (message : String)
    (conversationId : Option Nat) (now : Time) :
    Option (World × String × Nat) :=
  match resolveConversation w userId phoneNumber conversationId now with
  | none => none
  | some (w1, conversation) =>
      let w2 := { w1 with conversations :=
        (ConversationRepository.appendMessage w1.conversations conversation.id
          Role.user message now).1 }
      let ctx : ToolContext :=
        ⟨userId, conversation.id, phoneNumber⟩
      let start : LoopState :=
        ⟨w2, initialMessages conversation message now, ""⟩
      let ran := agentLoopStream llm ctx now 5 start 0
      let finalResponse := ran.1.finalResponse
      let w3 :=
        if finalResponse ≠ "" then
          { ran.1.world with conversations :=
            (ConversationRepository.appendMessage ran.1.world.conversations
              conversation.id Role.assistant finalResponse now).1 }
        else
          ran.1.world
      some (w3, finalResponse, ran.2)

/-- `processMessage` (the non-streaming, SMS variant): same pipeline with the
single-shot loop, but the assistant reply is persisted unconditionally. -/
def processMessage (llm : List ChatMsg → AIMsg) (w : World)
    (userId : Nat) (phoneNumber : String) (message : String)
    (conversationId : Option Nat) (now : Time) :
    Option (World × String × Nat) :=
  match resolveConversation w userId phoneNumber conversationId now with
  | none => none
  | some (w1, conversation) =>
      let w2 := { w1 with conversations :=
        (ConversationRepository.appendMessage w1.conversations conversation.id
          Role.user message now).1 }
      let ctx : ToolContext :=
        ⟨userId, conversation.id, phoneNumber⟩
      let start : LoopState :=
        ⟨w2, initialMessages conversation message now, ""⟩
      let ran := agentLoop llm ctx now 5 start 0
      let finalResponse := ran.1.finalResponse
      let w3 :=
        { ran.1.world with conversations :=
          (ConversationRepository.appendMessage ran.1.world.conversations
            conversation.id Role.assistant finalResponse now).1 }
      some (w3, finalResponse, ran.2)

/-- Number of completion calls issued by a non-streaming run (0 when the run
aborts before the loop). -/
def processMessageCallCount (llm : List ChatMsg → AIMsg) (w : World)
    (userId : Nat) (phoneNumber : String) (message : String)
    (conversationId : Option Nat) (now : Time) : Nat :=
  match processMessage llm w userId phoneNumber message conversationId now with
  | some out => out.2.2
  | none => 0

/-- Number of completion calls issued by a streaming run. -/
def processMessageStreamCallCount (llm : List ChatMsg → Option AIMsg)
    (w : World) (userId : Nat) (phoneNumber : String) (message : String)
    (conversationId : Option Nat) (now : Time) : Nat :=
  match processMessageStream llm w userId phoneNumber message conversationId
      now with
  | some out => out.2.2
  | none => 0

end AgentService

/-! ## Helper lemmas on keyed lists -/

section KeyedLemmas

variable {α : Type} (key : α → Nat)

theorem findByKey_append_left {l l2 : List α} {q : Nat} {x : α}
    (h : findByKey key l q = some x) :
    findByKey key (l ++ l2) q = some x := by
  induction l with
  | nil => simp [findByKey] at h
  | cons a rest ih =>
      by_cases hq : key a = q
      · simpa [findByKey, hq] using h
      · simp only [findByKey, beq_iff_eq, hq, if_false, List.cons_append] at h ⊢
        exact ih h

theorem findByKey_mem_of_nodup {l : List α} (hnd : (l.map key).Nodup)
    {x : α} (hx : x ∈ l) : findByKey key l (key x) = some x := by
  induction l with
  | nil => simp at hx
  | cons a rest ih =>
      rw [List.map_cons, List.nodup_cons] at hnd
      obtain ⟨hhead, hrest⟩ := hnd
      rcases List.mem_cons.mp hx with rfl | hx'
      · simp [findByKey]
      · have hne : key a ≠ key x := by
          intro hcontra
          exact hhead (hcontra ▸ List.mem_map_of_mem key hx')
        simp only [findByKey, beq_iff_eq, hne, if_false]
        exact ih hrest hx'

theorem findByKey_replaceFirst {f : α → α} (hf : ∀ a, key (f a) = key a)
    (l : List α) (q i : Nat) :
    findByKey key (replaceFirst key l q f) i =
      if q = i then (findByKey key l i).map f else findByKey key l i := by
  induction l with
  | nil => by_cases h : q = i <;> simp [findByKey, replaceFirst, h]
  | cons a rest ih =>
      by_cases hq : key a = q
      · by_cases hi : q = i
        · subst hi
          simp [replaceFirst, findByKey, hq, hf]
        · have hai : key a ≠ i := by
            rw [hq]; exact hi
          have hfai : key (f a) ≠ i := by
            rw [hf, hq]; exact hi
          simp [replaceFirst, findByKey, hq, hai, hfai, hi]
      · by_cases hai : key a = i
        · have hqi : ¬ i = q := by
            intro hcontra; exact hq (by rw [hai, hcontra])
          have hqi' : ¬ q = i := fun h => hqi h.symm
          simp [replaceFirst, findByKey, hq, hai, hqi, hqi']
        · simp only [replaceFirst, beq_iff_eq, hq, if_false]
          simp only [findByKey, beq_iff_eq, hai, if_false]
          exact ih

theorem findByKey_map {f : α → α} (hf : ∀ a, key (f a) = key a)
    (l : List α) (q : Nat) :
    findByKey key (l.map f) q = (findByKey key l q).map f := by
  induction l with
  | nil => simp [findByKey]
  | cons a rest ih =>
      by_cases h : key a = q
      · simp [findByKey, hf, h]
      · have : key (f a) ≠ q := by rw [hf]; exact h
        simp only [List.map_cons, findByKey, beq_iff_eq, h, this, if_false]
        exact ih

theorem replaceFirst_eq_map {l : List α} (hnd : (l.map key).Nodup)
    (q : Nat) (f : α → α) :
    replaceFirst key l q f = l.map (fun x => if key x = q then f x else x) := by
  induction l with
  | nil => simp [replaceFirst]
  | cons a rest ih =>
      rw [List.map_cons, List.nodup_cons] at hnd
      obtain ⟨hhead, hrest⟩ := hnd
      by_cases hq : key a = q
      · have hmap : rest.map (fun x => if key x = q then f x else x) = rest := by
          have hpt : ∀ x ∈ rest, (if key x = q then f x else x) = x := by
            intro x hx
            have : key x ≠ q := by
              intro hcontra
              exact hhead (by
                rw [← hcontra] at hq
                exact hq ▸ List.mem_map_of_mem key hx)
            simp [this]
          calc rest.map (fun x => if key x = q then f x else x)
              = rest.map id := List.map_congr_left (by simpa using hpt)
            _ = rest := List.map_id rest
        simp [replaceFirst, hq, hmap]
      · simp [replaceFirst, hq, ih hrest]

end KeyedLemmas

theorem replaceFirst_of_not_found {α : Type} (key : α → Nat) {l : List α}
    {q : Nat} (h : findByKey key l q = none) (f : α → α) :
    replaceFirst key l q f = l := by
  induction l with
  | nil => simp [replaceFirst]
  | cons a rest ih =>
      by_cases hq : key a = q
      · simp [findByKey, hq] at h
      · simp only [findByKey, beq_iff_eq, hq, if_false] at h
        simp [replaceFirst, hq, ih h]

theorem ReminderRepository.update_fst (st : ReminderStore) (id : Nat)
    (d : ReminderUpdateData) (now : Time) :
    (ReminderRepository.update st id d now).1 =
      replaceFirst Reminder.id st id (fun x => applyReminderUpdate x d now) := by
  unfold ReminderRepository.update
  cases h : ReminderRepository.findById st id with
  | none =>
      unfold ReminderRepository.findById at h
      simp [replaceFirst_of_not_found Reminder.id h]
  | some r => rfl

/-- The scheduler fold as a per-element map: processing a duplicate-free due
list over a store with duplicate-free ids, conditionally rewriting the first
id-match for each due element, rewrites exactly the due elements whose
condition holds. -/
theorem foldl_sendStep_eq_map {α : Type} [DecidableEq α] (key : α → Nat)
    (cond : α → Bool) (f : α → α) (hf : ∀ a, key (f a) = key a)
    (due : List α) :
    ∀ (s : List α), (s.map key).Nodup → (due.map key).Nodup →
      (∀ r ∈ due, findByKey key s (key r) = some r) →
      due.foldl
        (fun acc r => if cond r then replaceFirst key acc (key r) f else acc)
        s
      = s.map (fun x => if x ∈ due ∧ cond x = true then f x else x) := by
  induction due with
  | nil =>
      intro s _ _ _
      simp
  | cons d rest ih =>
      intro s hs hdue hmem
      rw [List.map_cons, List.nodup_cons] at hdue
      obtain ⟨hdhead, hdrest⟩ := hdue
      have hd : findByKey key s (key d) = some d := hmem d (List.mem_cons_self d rest)
      have hkey1 : ∀ x, key (if key x = key d ∧ cond d = true then f x else x) = key x := by
        intro x
        by_cases hx : key x = key d ∧ cond d = true <;> simp [hx, hf]
      have hs1 : (if cond d then replaceFirst key s (key d) f else s)
          = s.map (fun x => if key x = key d ∧ cond d = true then f x else x) := by
        cases hc : cond d with
        | true =>
            simp only [if_true]
            rw [replaceFirst_eq_map key hs]
            apply List.map_congr_left
            intro x _
            by_cases hxd : key x = key d <;> simp [hxd, hc]
        | false =>
            simp only [Bool.false_eq_true, if_false, and_false]
            exact (List.map_id s).symm
      have hs1nd : ((s.map (fun x => if key x = key d ∧ cond d = true then f x else x)).map key).Nodup := by
        rw [List.map_map]
        have : (key ∘ fun x => if key x = key d ∧ cond d = true then f x else x) = key := by
          funext x; exact hkey1 x
        rw [this]; exact hs
      have hmem1 : ∀ r ∈ rest,
          findByKey key (s.map (fun x => if key x = key d ∧ cond d = true then f x else x)) (key r) = some r := by
        intro r hr
        have hrne : ¬ key r = key d := fun hco =>
          hdhead (hco ▸ List.mem_map_of_mem key hr)
        rw [findByKey_map key hkey1, hmem r (List.mem_cons_of_mem d hr)]
        simp [hrne]
      rw [List.foldl_cons, hs1, ih _ hs1nd hdrest hmem1, List.map_map]
      apply List.map_congr_left
      intro x hx
      simp only [Function.comp_apply]
      by_cases hxd : key x = key d
      · have hxed : x = d := by
          have h1x := findByKey_mem_of_nodup key hs hx
          rw [hxd, hd] at h1x
          exact (Option.some.inj h1x).symm
        subst hxed
        cases hc : cond x with
        | true =>
            have hfd_notmem : f x ∉ rest := fun hm =>
              hdhead (by rw [← hf x]; exact List.mem_map_of_mem key hm)
            simp [hc, hfd_notmem]
        | false =>
            have hd_notmem : x ∉ rest := fun hm =>
              hdhead (List.mem_map_of_mem key hm)
            simp [hc, hd_notmem]
      · have hxnd : ¬ x = d := fun hco => hxd (by rw [hco])
        by_cases hxr : x ∈ rest
        · simp [hxd, hxr, List.mem_cons, hxnd]
        · simp [hxd, hxr, List.mem_cons, hxnd]

/-- The per-reminder function the scheduler applies on send success. -/
def markSentAt (now : Time) (r : Reminder) : Reminder :=
  { r with status := ReminderStatus.sent, updatedAt := now }

/-- Whether the tick's SMS send for `r` succeeds, under the send oracle. -/
def sendOkFor (sendSMS : String → String → Bool) (r : Reminder) : Bool :=
  sendSMS r.phoneNumber (ReminderScheduler.formatReminderMessage r)

theorem tick_pair_spec (sendSMS : String → String → Bool) (now : Time)
    (due : List Reminder) :
    ∀ (s : ReminderStore) (a : List SendAttempt),
      due.foldl
        (fun acc r =>
          let step := ReminderScheduler.sendReminder sendSMS acc.1 now r
          (step.1, acc.2 ++ [⟨r.phoneNumber, ReminderScheduler.formatReminderMessage r, step.2⟩]))
        (s, a)
      = (due.foldl (fun acc r => (ReminderScheduler.sendReminder sendSMS acc now r).1) s,
          a ++ due.map (fun r =>
            ⟨r.phoneNumber, ReminderScheduler.formatReminderMessage r, sendOkFor sendSMS r⟩)) := by
  induction due with
  | nil => intro s a; simp
  | cons d rest ih =>
      intro s a
      rw [List.foldl_cons, List.foldl_cons, ih]
      unfold ReminderScheduler.sendReminder sendOkFor
      cases hc : sendSMS d.phoneNumber (ReminderScheduler.formatReminderMessage d) <;> simp [hc]

theorem sendReminder_fst (sendSMS : String → String → Bool) (now : Time)
    (s : ReminderStore) (r : Reminder) :
    (ReminderScheduler.sendReminder sendSMS s now r).1 =
      if sendOkFor sendSMS r then
        replaceFirst Reminder.id s r.id (markSentAt now)
      else s := by
  unfold ReminderScheduler.sendReminder sendOkFor
  cases hc : sendSMS r.phoneNumber (ReminderScheduler.formatReminderMessage r) with
  | true =>
      simp only [if_true]
      unfold ReminderRepository.markAsSent ReminderRepository.updateStatus
      rw [ReminderRepository.update_fst]
      rfl
  | false => simp

/-- The store after one scheduler tick, as a pointwise map over the store:
under duplicate-free ids, exactly the due reminders whose send succeeded are
rewritten to `sent`. -/
theorem tick_store_eq_map (sendSMS : String → String → Bool)
    (st : ReminderStore) (now : Time)
    (hnd : (st.map Reminder.id).Nodup) :
    (ReminderScheduler.checkAndSendReminders sendSMS st now).1 =
      st.map (fun r =>
        if r.isDue now ∧ sendOkFor sendSMS r = true then markSentAt now r
        else r) := by
  unfold ReminderScheduler.checkAndSendReminders
  rw [tick_pair_spec]
  have hstep : (fun (acc : ReminderStore) (r : Reminder) =>
      (ReminderScheduler.sendReminder sendSMS acc now r).1)
      = (fun acc r => if sendOkFor sendSMS r then
          replaceFirst Reminder.id acc r.id (markSentAt now) else acc) := by
    funext acc r
    exact sendReminder_fst sendSMS now acc r
  simp only [hstep]
  have hdue_nd : ((ReminderRepository.findDueReminders st now).map Reminder.id).Nodup := by
    have hsub : List.Sublist
        ((ReminderRepository.findDueReminders st now).map Reminder.id)
        (st.map Reminder.id) :=
      List.Sublist.map Reminder.id (List.filter_sublist st)
    exact List.Nodup.sublist hsub hnd
  have hmem : ∀ r ∈ ReminderRepository.findDueReminders st now,
      findByKey Reminder.id st r.id = some r := by
    intro r hr
    exact findByKey_mem_of_nodup Reminder.id hnd (List.mem_of_mem_filter hr)
  rw [foldl_sendStep_eq_map Reminder.id (sendOkFor sendSMS) (markSentAt now)
    (fun _ => rfl) (ReminderRepository.findDueReminders st now) st hnd hdue_nd hmem]
  apply List.map_congr_left
  intro x hx
  have hiff : x ∈ ReminderRepository.findDueReminders st now ↔ x.isDue now = true := by
    unfold ReminderRepository.findDueReminders
    rw [List.mem_filter]
    exact ⟨fun h => h.2, fun h => ⟨hx, h⟩⟩
  by_cases hc : x.isDue now ∧ sendOkFor sendSMS x = true
  · have : x ∈ ReminderRepository.findDueReminders st now ∧ sendOkFor sendSMS x = true :=
      ⟨hiff.mpr hc.1, hc.2⟩
    simp only [if_pos this, if_pos hc]
  · have : ¬ (x ∈ ReminderRepository.findDueReminders st now ∧ sendOkFor sendSMS x = true) := by
      intro hcontra
      exact hc ⟨hiff.mp hcontra.1, hcontra.2⟩
    simp only [if_neg this, if_neg hc]

/-- The send attempts of one scheduler tick: exactly one attempt per due
reminder, in query order, regardless of earlier failures. -/
theorem tick_attempts_eq (sendSMS : String → String → Bool)
    (st : ReminderStore) (now : Time) :
    (ReminderScheduler.checkAndSendReminders sendSMS st now).2 =
      (ReminderRepository.findDueReminders st now).map (fun r =>
        ⟨r.phoneNumber, ReminderScheduler.formatReminderMessage r,
          sendOkFor sendSMS r⟩) := by
  unfold ReminderScheduler.checkAndSendReminders
  rw [tick_pair_spec]
  simp

/-! ## Store-effect lemmas for the tools -/

theorem createTool_preserves_found (ctx : ToolContext) (now : Time)
    (st : ReminderStore) (freshId : Nat) (args : CreateReminderArgs)
    {id : Nat} {r : Reminder}
    (h : ReminderRepository.findById st id = some r) :
    ReminderRepository.findById
      (ReminderTools.createReminderTool ctx now st freshId args).1 id
      = some r := by
  unfold ReminderTools.createReminderTool
  split
  · exact h
  · split
    · exact h
    · split
      · exact h
      · split
        · exact findByKey_append_left Reminder.id h
        · exact h

theorem updateTool_preserves_status (ctx : ToolContext) (now : Time)
    (st : ReminderStore) (args : UpdateReminderArgs)
    {id : Nat} {r r' : Reminder}
    (h : ReminderRepository.findById st id = some r)
    (h' : ReminderRepository.findById
      (ReminderTools.updateReminderTool ctx now st args).1 id = some r') :
    r'.status = r.status := by
  have hsame : ReminderRepository.findById st id = some r' → r'.status = r.status := by
    intro hst
    rw [h] at hst
    rw [Option.some.inj hst]
  unfold ReminderTools.updateReminderTool at h'
  split at h'
  · exact hsame h'
  · split at h'
    · exact hsame h'
    · split at h'
      · exact hsame h'
      · split at h'
        · exact hsame h'
        · split at h'
          · exact hsame h'
          · split at h'
            · exact hsame h'
            · rename_i st' v heq
              rename_i t1 s1 t2 t3 t4 t5 t6 t7
              have hfst := congrArg Prod.fst heq
              simp only at hfst h'
              rw [← hfst, ReminderRepository.update_fst] at h'
              unfold ReminderRepository.findById at h h'
              rw [findByKey_replaceFirst
                (f := fun x => applyReminderUpdate x
                  (ReminderTools.updateDataOf args s1) now)
                Reminder.id (fun _ => rfl)] at h'
              by_cases hid : args.reminderId = id
              · rw [if_pos hid, h, Option.map_some'] at h'
                rw [← Option.some.inj h']
                rfl
              · rw [if_neg hid, h] at h'
                rw [(Option.some.inj h').symm]

theorem deleteTool_status (ctx : ToolContext) (now : Time)
    (st : ReminderStore) (args : DeleteReminderArgs)
    {id : Nat} {r r' : Reminder}
    (h : ReminderRepository.findById st id = some r)
    (h' : ReminderRepository.findById
      (ReminderTools.deleteReminderTool ctx now st args).1 id = some r') :
    r' = r ∨ r'.status = ReminderStatus.cancelled := by
  unfold ReminderTools.deleteReminderTool at h'
  split at h'
  · rw [h] at h'
    exact Or.inl (Option.some.inj h').symm
  · split at h'
    · rw [h] at h'
      exact Or.inl (Option.some.inj h').symm
    · unfold ReminderRepository.cancelReminder ReminderRepository.updateStatus at h'
      rw [ReminderRepository.update_fst] at h'
      unfold ReminderRepository.findById at h h'
      rw [findByKey_replaceFirst
        (f := fun x => applyReminderUpdate x
          { status := some ReminderStatus.cancelled } now)
        Reminder.id (fun _ => rfl)] at h'
      by_cases hid : args.reminderId = id
      · rw [if_pos hid, h] at h'
        right
        rw [(Option.some.inj h').symm]
        rfl
      · rw [if_neg hid, h] at h'
        exact Or.inl (Option.some.inj h').symm

/-! ## Frame lemmas for the agent loop -/

namespace AgentService

theorem runTool_conversations (ctx : ToolContext) (now : Time) (w : World)
    (tc : ToolCall) :
    ((runTool ctx now w tc).1).conversations = w.conversations := by
  unfold runTool
  cases tc.args <;> split_ifs <;> rfl

theorem dispatchToolCalls_conversations (ctx : ToolContext) (now : Time)
    (tcs : List ToolCall) :
    ∀ st : LoopState,
      ((dispatchToolCalls ctx now st tcs).world).conversations
        = st.world.conversations := by
  induction tcs with
  | nil => intro st; rfl
  | cons tc rest ih =>
      intro st
      unfold dispatchToolCalls at ih ⊢
      rw [List.foldl_cons, ih]
      have hrun := runTool_conversations ctx now st.world tc
      unfold dispatchStep
      split
      · rename_i w' output heq
        have hw : w' = (runTool ctx now st.world tc).1 := by rw [heq]
        simp only [hw]
        exact hrun
      · rename_i w' heq
        have hw : w' = (runTool ctx now st.world tc).1 := by rw [heq]
        simp only [hw]
        exact hrun

theorem agentLoop_conversations (llm : List ChatMsg → AIMsg)
    (ctx : ToolContext) (now : Time) :
    ∀ (fuel : Nat) (st : LoopState) (calls : Nat),
      ((agentLoop llm ctx now fuel st calls).1.world).conversations
        = st.world.conversations := by
  intro fuel
  induction fuel with
  | zero => intro st calls; rfl
  | succ fuel ih =>
      intro st calls
      simp only [agentLoop]
      split
      · rfl
      · rw [ih]
        exact dispatchToolCalls_conversations ctx now _ _

theorem agentLoopStream_conversations (llm : List ChatMsg → Option AIMsg)
    (ctx : ToolContext) (now : Time) :
    ∀ (fuel : Nat) (st : LoopState) (calls : Nat),
      ((agentLoopStream llm ctx now fuel st calls).1.world).conversations
        = st.world.conversations := by
  intro fuel
  induction fuel with
  | zero => intro st calls; rfl
  | succ fuel ih =>
      intro st calls
      simp only [agentLoopStream]
      split
      · rfl
      · split
        · rfl
        · rw [ih]
          exact dispatchToolCalls_conversations ctx now _ _

theorem agentLoop_calls_le (llm : List ChatMsg → AIMsg)
    (ctx : ToolContext) (now : Time) :
    ∀ (fuel : Nat) (st : LoopState) (calls : Nat),
      (agentLoop llm ctx now fuel st calls).2 ≤ calls + fuel := by
  intro fuel
  induction fuel with
  | zero => intro st calls; exact Nat.le_refl _
  | succ fuel ih =>
      intro st calls
      simp only [agentLoop]
      split
      · simp only
        omega
      · calc (agentLoop llm ctx now fuel _ (calls + 1)).2
            ≤ (calls + 1) + fuel := ih _ _
          _ ≤ calls + (fuel + 1) := by omega

theorem agentLoopStream_calls_le (llm : List ChatMsg → Option AIMsg)
    (ctx : ToolContext) (now : Time) :
    ∀ (fuel : Nat) (st : LoopState) (calls : Nat),
      (agentLoopStream llm ctx now fuel st calls).2 ≤ calls + fuel := by
  intro fuel
  induction fuel with
  | zero => intro st calls; exact Nat.le_refl _
  | succ fuel ih =>
      intro st calls
      simp only [agentLoopStream]
      split
      · simp only
        omega
      · split
        · simp only
          omega
        · calc (agentLoopStream llm ctx now fuel _ (calls + 1)).2
              ≤ (calls + 1) + fuel := ih _ _
            _ ≤ calls + (fuel + 1) := by omega

end AgentService

/-! ## Claim theorems -/

/-- Setting the title happens exactly on a first message with role user. -/
theorem addMessage_first_user_title (c : Conversation) (content : String)
    (now : Time) (hempty : c.messages = []) :
    (c.addMessage Role.user content now).title
      = Conversation.generateTitle content := by
  unfold Conversation.addMessage
  rw [hempty]
  simp

/-- A message appended to a nonempty conversation never touches the title. -/
theorem addMessage_later_title (c : Conversation) (role : Role)
    (content : String) (now : Time) (hne : c.messages ≠ []) :
    (c.addMessage role content now).title = c.title := by
  unfold Conversation.addMessage
  have hlen : (c.messages ++ [(⟨role, content, now⟩ : Message)]).length ≠ 1 := by
    rcases hm : c.messages with _ | ⟨m, ms⟩
    · exact absurd hm hne
    · simp [List.length_append]
  rw [if_neg (fun hcontra => hlen hcontra.1)]

/-- An empty conversation, used to instantiate title-generation claims. -/
def convEmpty : Conversation :=
  ⟨1, 7, none, "New Conversation", [], 0, 0, 0⟩

/-- A one-message conversation, used to instantiate later-append claims. -/
def convNonEmpty : Conversation :=
  ⟨2, 7, none, "hi", [⟨Role.user, "hi", 1⟩], 0, 1, 1⟩

/-- C8: appending the first message of a conversation with role user sets the
title from the content via `generateTitle` (first line, truncated to 50
characters, ellipsis when the title is a cut); in particular the >50-character
single-line first message of the spec yields its first 50 characters plus
"...", a first message "hi" keeps title "hi", and an append to a conversation
that already has messages never changes the title. -/
theorem c8_title_generation :
    (∀ (c : Conversation) (content : String) (now : Time),
        c.messages = [] →
        (c.addMessage Role.user content now).title
          = Conversation.generateTitle content)
    ∧ (convEmpty.addMessage Role.user
        "Remind me to water the plants every single morning before work" 5).title
        = "Remind me to water the plants every single morning..."
    ∧ (convEmpty.addMessage Role.user "hi" 5).title = "hi"
    ∧ (∀ (c : Conversation) (role : Role) (content : String) (now : Time),
        c.messages ≠ [] →
        (c.addMessage role content now).title = c.title) := by
  refine ⟨addMessage_first_user_title, ?_, ?_, addMessage_later_title⟩
  · decide
  · decide

/-- C8 witness: the generic parts of the claim evaluated at concrete
conversations. -/
theorem c8_title_generation_witness :
    (convEmpty.messages = [] ∧
      (convEmpty.addMessage Role.user "buy milk" 3).title
        = Conversation.generateTitle "buy milk")
    ∧ (convNonEmpty.messages ≠ [] ∧
      (convNonEmpty.addMessage Role.assistant "sure" 9).title
        = convNonEmpty.title) :=
  ⟨⟨rfl, c8_title_generation.1 convEmpty "buy milk" 3 rfl⟩,
    ⟨by decide, c8_title_generation.2.2.2 convNonEmpty Role.assistant "sure" 9
      (by decide)⟩⟩

/-- C9: for a first user message whose first line is at most 50 characters
but shorter than the whole content (e.g. because of a newline), the generated
title is the first line with "..." appended: the ellipsis marks any proper
prefix, not only the 50-character cut. -/
theorem c9_first_line_ellipsis (c : Conversation) (content : String)
    (now : Time) (hempty : c.messages = [])
    (hnl : '\n' ∈ content.data)
    (hlen : (content.data.takeWhile (fun ch => ch ≠ '\n')).length ≤ 50)
    (hlt : (content.data.takeWhile (fun ch => ch ≠ '\n')).length
      < content.data.length) :
    (c.addMessage Role.user content now).title
      = String.mk (content.data.takeWhile (fun ch => ch ≠ '\n') ++ "...".data) := by
  rw [addMessage_first_user_title c content now hempty]
  simp only [Conversation.generateTitle]
  rw [List.take_of_length_le hlen, if_pos hlt]

/-- C9 witness: the claim applied to the two-line first message
"hi\nthere". -/
theorem c9_first_line_ellipsis_witness :
    convEmpty.messages = [] ∧
    (convEmpty.addMessage Role.user "hi\nthere" 4).title
      = String.mk (("hi\nthere".data).takeWhile (fun ch => ch ≠ '\n') ++ "...".data) :=
  ⟨rfl, c9_first_line_ellipsis convEmpty "hi\nthere" 4 rfl (by decide)
    (by decide) (by decide)⟩

/-- A conversation owned by user 9 with a phone number, used to instantiate
the cross-user phone lookup claim. -/
def convOtherUser : Conversation :=
  ⟨3, 9, some "+15550001111", "hello", [⟨Role.user, "hello", 1⟩], 0, 1, 1⟩

/-- C10: when a (nonempty) phone number is given and a conversation with that
phone number exists, `getOrCreateForUser` returns that conversation as-is and
leaves the store untouched, even when its owning user differs from the
caller: the lookup matches on phone number alone. -/
theorem c10_phone_lookup (store : ConversationStore) (userId : Nat)
    (p : String) (c : Conversation) (freshId : Nat) (now : Time)
    (hp : p ≠ "")
    (hfound : ConversationRepository.findByPhoneNumber store p = some c)
    (hdiff : c.userId ≠ userId) :
    ConversationRepository.getOrCreateForUser store userId (some p) freshId now
      = some (store, c) := by
  unfold ConversationRepository.getOrCreateForUser
  simp [hp, hfound]

/-- C10 witness: a caller with user id 7 receives user 9's conversation
through the phone-only lookup. -/
theorem c10_phone_lookup_witness :
    ("+15550001111" ≠ "" ∧
      ConversationRepository.findByPhoneNumber [convOtherUser] "+15550001111"
        = some convOtherUser ∧
      convOtherUser.userId ≠ 7) ∧
    ConversationRepository.getOrCreateForUser [convOtherUser] 7
      (some "+15550001111") 50 9 = some ([convOtherUser], convOtherUser) :=
  ⟨⟨by decide, by decide, by decide⟩,
    c10_phone_lookup [convOtherUser] 7 "+15550001111" convOtherUser 50 9
      (by decide) (by decide) (by decide)⟩

/-- The tool context used by the concrete tool-claim witnesses. -/
def ctxMain : ToolContext := ⟨7, 3, "+15551234567"⟩

/-- C5: a `create_reminder` call whose `scheduledFor` parses to an instant at
or before the current instant is rejected — the store is unchanged and a
failure is surfaced to the model; one whose `scheduledFor` parses to a
strictly future instant (with schema-conformant title/description and a
context phone number that passes the Reminder model's E.164 validation)
persists exactly one new reminder, whose status is pending. -/
theorem c5_create_validation (ctx : ToolContext) (now : Time)
    (st : ReminderStore) (freshId : Nat) :
    (∀ (args : CreateReminderArgs) (d : Time),
        args.scheduledFor = some d → d ≤ now →
        (ReminderTools.createReminderTool ctx now st freshId args).1 = st ∧
        ((ReminderTools.createReminderTool ctx now st freshId args).2).isFailure
          = true)
    ∧ (∀ (args : CreateReminderArgs) (d : Time),
        args.scheduledFor = some d → now < d →
        1 ≤ args.title.length → args.title.length ≤ 200 →
        (∀ s, args.description = some s → s.length ≤ 1000) →
        isValidE164 ctx.phoneNumber = true →
        (ReminderTools.createReminderTool ctx now st freshId args).1
          = st ++ [ReminderTools.newReminder ctx freshId args d now]
        ∧ (ReminderTools.newReminder ctx freshId args d now).status
          = ReminderStatus.pending) := by
  constructor
  · intro args d hsched hle
    have hval : DateValidator.validateFutureISODate args.scheduledFor now
        = .error "Reminder date must be in the future" := by
      rw [hsched]
      unfold DateValidator.validateFutureISODate DateValidator.validateISODate
        DateValidator.isFutureDate
      simp [Nat.not_lt.mpr hle]
    unfold ReminderTools.createReminderTool
    split
    · exact ⟨rfl, rfl⟩
    · split
      · exact ⟨rfl, rfl⟩
      · rw [hval]
        exact ⟨rfl, rfl⟩
  · intro args d hsched hlt ht1 ht2 hdesc hphone
    have hval : DateValidator.validateFutureISODate args.scheduledFor now
        = .ok d := by
      rw [hsched]
      unfold DateValidator.validateFutureISODate DateValidator.validateISODate
        DateValidator.isFutureDate
      simp [hlt]
    have hdesc_cond : args.description.any (fun s => 1000 < s.length) = false := by
      cases hd : args.description with
      | none => rfl
      | some s =>
          have := hdesc s hd
          simp [Option.any, Nat.not_lt.mpr this]
    have hvalid : (ReminderTools.newReminder ctx freshId args d now).validB
        = true := by
      unfold Reminder.validB ReminderTools.newReminder
      simp only
      rw [hphone]
      cases hd : args.description with
      | none => simp [ht1, ht2]
      | some s =>
          have := hdesc s hd
          simp [ht1, ht2, this]
    unfold ReminderTools.createReminderTool
    rw [if_neg (not_not_intro ⟨ht1, ht2⟩), if_neg (by rw [hdesc_cond]; exact
      Bool.false_ne_true)]
    simp only [hval]
    rw [if_pos hvalid]
    exact ⟨rfl, rfl⟩

/-- C5 witness: with the current instant 10, a reminder scheduled for 5 is
rejected and leaves the store empty, while one scheduled for 20 is persisted
pending. -/
theorem c5_create_validation_witness :
    ((⟨"water plants", none, some 5⟩ : CreateReminderArgs).scheduledFor
        = some 5 ∧ 5 ≤ 10 ∧
      (ReminderTools.createReminderTool ctxMain 10 [] 1
        ⟨"water plants", none, some 5⟩).1 = [] ∧
      ((ReminderTools.createReminderTool ctxMain 10 [] 1
        ⟨"water plants", none, some 5⟩).2).isFailure = true)
    ∧ ((ReminderTools.createReminderTool ctxMain 10 [] 1
        ⟨"water plants", none, some 20⟩).1
        = [] ++ [ReminderTools.newReminder ctxMain 1
            ⟨"water plants", none, some 20⟩ 20 10]
      ∧ (ReminderTools.newReminder ctxMain 1
          ⟨"water plants", none, some 20⟩ 20 10).status
          = ReminderStatus.pending) :=
  ⟨⟨rfl, by decide,
      (c5_create_validation ctxMain 10 [] 1).1
        ⟨"water plants", none, some 5⟩ 5 rfl (by decide)⟩,
    (c5_create_validation ctxMain 10 [] 1).2
      ⟨"water plants", none, some 20⟩ 20 rfl (by decide) (by decide) (by decide)
      (by intro s hs; cases hs) (by decide)⟩

/-- C6: when the target reminder exists but is owned by a different user, and
the optional arguments pass the zod schema, `update_reminder` returns the
structured permission failure and leaves the store (hence every field of the
reminder) unchanged; `delete_reminder` behaves the same with its own
permission message. Neither raises: the failure is an ordinary result. -/
theorem c6_ownership_check (ctx : ToolContext) (now : Time)
    (st : ReminderStore) (rid : Nat) (r : Reminder)
    (hfound : ReminderRepository.findById st rid = some r)
    (hown : r.userId ≠ ctx.userId) :
    (∀ (args : UpdateReminderArgs), args.reminderId = rid →
        args.title.any (fun t => ¬ (1 ≤ t.length ∧ t.length ≤ 200)) = false →
        args.description.any (fun s => 1000 < s.length) = false →
        (∃ sched, ReminderTools.parseUpdateSchedule args.scheduledFor now
          = .ok sched) →
        ReminderTools.updateReminderTool ctx now st args
          = (st, .failure "You do not have permission to update this reminder."))
    ∧ ReminderTools.deleteReminderTool ctx now st ⟨rid⟩
        = (st, .failure "You do not have permission to delete this reminder.") := by
  constructor
  · intro args hrid htitle hdesc ⟨sched, hsched⟩
    unfold ReminderTools.updateReminderTool
    rw [if_neg (by rw [htitle]; exact Bool.false_ne_true),
      if_neg (by rw [hdesc]; exact Bool.false_ne_true), hrid]
    simp only [hsched, hfound]
    rw [if_pos hown]
  · unfold ReminderTools.deleteReminderTool
    simp only [hfound]
    rw [if_pos hown]

/-- A pending reminder owned by user 9, targeted by the cross-user claims. -/
def foreignReminder : Reminder :=
  ⟨4, 9, 3, "+15550001111", "their errand", none, 80, ReminderStatus.pending,
    10, 10⟩

/-- C6 witness: user 7 attempting to update or delete user 9's reminder gets
the permission failures and the store is untouched. -/
theorem c6_ownership_check_witness :
    (ReminderRepository.findById [foreignReminder] 4 = some foreignReminder ∧
      foreignReminder.userId ≠ ctxMain.userId) ∧
    ReminderTools.updateReminderTool ctxMain 10 [foreignReminder]
        ⟨4, some "new title", none, none⟩
      = ([foreignReminder],
          .failure "You do not have permission to update this reminder.") ∧
    ReminderTools.deleteReminderTool ctxMain 10 [foreignReminder] ⟨4⟩
      = ([foreignReminder],
          .failure "You do not have permission to delete this reminder.") :=
  ⟨⟨by decide, by decide⟩,
    (c6_ownership_check ctxMain 10 [foreignReminder] 4 foreignReminder
        (by decide) (by decide)).1
      ⟨4, some "new title", none, none⟩ rfl (by decide) (by decide)
      ⟨none, rfl⟩,
    (c6_ownership_check ctxMain 10 [foreignReminder] 4 foreignReminder
        (by decide) (by decide)).2⟩

/-- The operations that touch the reminder store: the three mutating tools
and one scheduler tick (the scheduler's use of `markAsSent`). -/
inductive StoreOp
  | opCreate (ctx : ToolContext) (args : CreateReminderArgs) (freshId : Nat)
      (now : Time)
  | opUpdate (ctx : ToolContext) (args : UpdateReminderArgs) (now : Time)
  | opDelete (ctx : ToolContext) (args : DeleteReminderArgs) (now : Time)
  | opTick (sendSMS : String → String → Bool) (now : Time)

def StoreOp.apply (op : StoreOp) (st : ReminderStore) : ReminderStore :=
  match op with
  | .opCreate ctx args freshId now =>
      (ReminderTools.createReminderTool ctx now st freshId args).1
  | .opUpdate ctx args now => (ReminderTools.updateReminderTool ctx now st args).1
  | .opDelete ctx args now => (ReminderTools.deleteReminderTool ctx now st args).1
  | .opTick sendSMS now => (ReminderScheduler.checkAndSendReminders sendSMS st now).1

/-- A sent reminder owned by user 7, the input refuting sent-terminality. -/
def sentReminder : Reminder :=
  ⟨1, 7, 3, "+15551234567", "call mom", none, 50, ReminderStatus.sent, 10, 60⟩

/-- C2 counterexample: `delete_reminder` invoked by the owner on a reminder
whose status is sent moves it to cancelled — an operation does move a
reminder out of the sent state, so sent is not terminal. -/
theorem c2_sent_cancelled_counterexample :
    (ReminderRepository.findById [sentReminder] 1).map Reminder.status
        = some ReminderStatus.sent
    ∧ (ReminderRepository.findById
        ((StoreOp.opDelete ctxMain ⟨1⟩ 100).apply [sentReminder]) 1).map
          Reminder.status = some ReminderStatus.cancelled := by
  constructor
  · rfl
  · rfl

/-- C2 amended: over a store with duplicate-free ids, each of the four
operations moves a reminder's status only along pending→sent, pending→cancelled
or sent→cancelled (or leaves it unchanged): nothing ever leaves cancelled or
returns to pending, but sent is not terminal — delete_reminder cancels even a
sent reminder. -/
theorem c2_status_transitions_amended (st : ReminderStore) (op : StoreOp)
    (id : Nat) (r r' : Reminder)
    (hnd : (st.map Reminder.id).Nodup)
    (hbefore : ReminderRepository.findById st id = some r)
    (hafter : ReminderRepository.findById (op.apply st) id = some r') :
    r'.status = r.status
    ∨ (r.status = ReminderStatus.pending ∧ r'.status = ReminderStatus.sent)
    ∨ (r.status = ReminderStatus.pending ∧ r'.status = ReminderStatus.cancelled)
    ∨ (r.status = ReminderStatus.sent ∧ r'.status = ReminderStatus.cancelled) := by
  cases op with
  | opCreate ctx args freshId now =>
      left
      unfold StoreOp.apply at hafter
      rw [createTool_preserves_found ctx now st freshId args hbefore] at hafter
      rw [Option.some.inj hafter]
  | opUpdate ctx args now =>
      left
      exact updateTool_preserves_status ctx now st args hbefore hafter
  | opDelete ctx args now =>
      rcases deleteTool_status ctx now st args hbefore hafter with heq | hcan
      · left; rw [heq]
      · cases hs : r.status with
        | pending => right; right; left; exact ⟨rfl, hcan⟩
        | sent => right; right; right; exact ⟨rfl, hcan⟩
        | cancelled => left; exact hcan
  | opTick sendSMS now =>
      simp only [StoreOp.apply] at hafter
      rw [tick_store_eq_map sendSMS st now hnd] at hafter
      unfold ReminderRepository.findById at hbefore hafter
      rw [findByKey_map Reminder.id (fun x => by
        by_cases hx : x.isDue now ∧ sendOkFor sendSMS x = true <;>
          simp [hx, markSentAt]) st id] at hafter
      rw [hbefore, Option.map_some'] at hafter
      have hr' := (Option.some.inj hafter).symm
      by_cases hx : r.isDue now ∧ sendOkFor sendSMS r = true
      · rw [if_pos hx] at hr'
        have hpend : r.status = ReminderStatus.pending := by
          have := hx.1
          unfold Reminder.isDue Reminder.isPending at this
          have := (Bool.and_eq_true _ _).mp this
          exact beq_iff_eq.mp this.1
        right; left
        exact ⟨hpend, by rw [hr']; rfl⟩
      · rw [if_neg hx] at hr'
        left; rw [hr']

/-- A due pending reminder owned by user 7, used by the C2 and C7 witnesses. -/
def pendingReminder : Reminder :=
  ⟨2, 7, 3, "+15551234567", "water plants", none, 40, ReminderStatus.pending,
    10, 10⟩

/-- The pending reminder after the owner cancels it at instant 100. -/
def cancelledReminder : Reminder :=
  { pendingReminder with status := ReminderStatus.cancelled, updatedAt := 100 }

/-- C2 witness: the amended transition relation evaluated on a concrete
delete of a pending reminder. -/
theorem c2_status_transitions_witness :
    (([pendingReminder].map Reminder.id).Nodup ∧
      ReminderRepository.findById [pendingReminder] 2 = some pendingReminder ∧
      ReminderRepository.findById
        ((StoreOp.opDelete ctxMain ⟨2⟩ 100).apply [pendingReminder]) 2
        = some cancelledReminder) ∧
    (cancelledReminder.status = pendingReminder.status
      ∨ (pendingReminder.status = ReminderStatus.pending ∧
          cancelledReminder.status = ReminderStatus.sent)
      ∨ (pendingReminder.status = ReminderStatus.pending ∧
          cancelledReminder.status = ReminderStatus.cancelled)
      ∨ (pendingReminder.status = ReminderStatus.sent ∧
          cancelledReminder.status = ReminderStatus.cancelled)) :=
  ⟨⟨by decide, by decide, by decide⟩,
    c2_status_transitions_amended [pendingReminder]
      (StoreOp.opDelete ctxMain ⟨2⟩ 100) 2 pendingReminder cancelledReminder
      (by decide) (by decide) (by decide)⟩

/-- C7: one scheduler tick selects exactly the reminders with status pending
and scheduledFor at or before now (the due reminders); each selected reminder
gets exactly one send attempt, in query order, regardless of earlier
failures; a reminder is rewritten to sent (with a fresh updatedAt) exactly
when it was due and its send succeeded, every other reminder — including a
due one whose send failed, which stays pending — is untouched. -/
theorem c7_scheduler_tick (sendSMS : String → String → Bool)
    (st : ReminderStore) (now : Time)
    (hnd : (st.map Reminder.id).Nodup) :
    (ReminderScheduler.checkAndSendReminders sendSMS st now).1
      = st.map (fun r =>
          if r.isDue now ∧ sendOkFor sendSMS r = true then markSentAt now r
          else r)
    ∧ (ReminderScheduler.checkAndSendReminders sendSMS st now).2
      = (ReminderRepository.findDueReminders st now).map (fun r =>
          ⟨r.phoneNumber, ReminderScheduler.formatReminderMessage r,
            sendOkFor sendSMS r⟩) :=
  ⟨tick_store_eq_map sendSMS st now hnd, tick_attempts_eq sendSMS st now⟩

/-- A second due pending reminder (different phone) and a pending reminder
scheduled far in the future, for the concrete tick witness. -/
def dueReminderB : Reminder :=
  ⟨5, 7, 3, "+15550002222", "stretch", some "note", 45,
    ReminderStatus.pending, 10, 10⟩

def laterReminder : Reminder :=
  ⟨6, 7, 3, "+15550003333", "someday", none, 999, ReminderStatus.pending,
    10, 10⟩

def tickStore : ReminderStore := [pendingReminder, dueReminderB, laterReminder]

/-- A send oracle that fails exactly for `pendingReminder`'s phone number. -/
def sendFailFirst : String → String → Bool :=
  fun phone _ => phone ≠ "+15551234567"

/-- C7 witness: a concrete tick at instant 50 over two due reminders (the
first of which fails to send) and one not yet due. -/
theorem c7_scheduler_tick_witness :
    (tickStore.map Reminder.id).Nodup ∧
    ((ReminderScheduler.checkAndSendReminders sendFailFirst tickStore 50).1
      = tickStore.map (fun r =>
          if r.isDue 50 ∧ sendOkFor sendFailFirst r = true then markSentAt 50 r
          else r)
    ∧ (ReminderScheduler.checkAndSendReminders sendFailFirst tickStore 50).2
      = (ReminderRepository.findDueReminders tickStore 50).map (fun r =>
          ⟨r.phoneNumber, ReminderScheduler.formatReminderMessage r,
            sendOkFor sendFailFirst r⟩)) :=
  ⟨by decide, c7_scheduler_tick sendFailFirst tickStore 50 (by decide)⟩

/-- C4: a single agent-loop run — streaming or non-streaming, for every
Completion Client oracle, world and input — issues at most 5 completion
calls; in particular, once the 5-round budget is exhausted no additional
completion call is made. -/
theorem c4_completion_call_budget (llm : List ChatMsg → AIMsg)
    (llms : List ChatMsg → Option AIMsg) (w : World) (userId : Nat)
    (phoneNumber message : String) (conversationId : Option Nat)
    (now : Time) :
    AgentService.processMessageCallCount llm w userId phoneNumber message
        conversationId now ≤ 5
    ∧ AgentService.processMessageStreamCallCount llms w userId phoneNumber
        message conversationId now ≤ 5 := by
  constructor
  · unfold AgentService.processMessageCallCount
    split
    · rename_i out heq
      simp only [AgentService.processMessage] at heq
      split at heq
      · simp at heq
      · rw [← Option.some.inj heq]
        exact AgentService.agentLoop_calls_le llm _ now 5 _ 0
    · omega
  · unfold AgentService.processMessageStreamCallCount
    split
    · rename_i out heq
      simp only [AgentService.processMessageStream] at heq
      split at heq
      · simp at heq
      · rw [← Option.some.inj heq]
        exact AgentService.agentLoopStream_calls_le llms _ now 5 _ 0
    · omega

/-- An existing empty conversation with id 1, and the world holding it, for
the concrete agent-loop runs. -/
def cBase : Conversation := ⟨1, 7, none, "t", [], 0, 0, 0⟩

def wBase : World := ⟨[cBase], [], 100, 100⟩

/-- A single-shot oracle that proposes a `list_reminders` tool call on every
round, exhausting the iteration budget with empty final text. -/
def llmAlwaysTool : List ChatMsg → AIMsg :=
  fun _ => ⟨"", [⟨"call1", "list_reminders", ToolArgs.listArgs ⟨none⟩⟩]⟩

/-- The streaming oracle doing the same. -/
def llmsAlwaysTool : List ChatMsg → Option AIMsg :=
  fun _ => some ⟨"", [⟨"call1", "list_reminders", ToolArgs.listArgs ⟨none⟩⟩]⟩

/-- C3 counterexample: a non-streaming run whose budget is exhausted while
tool calls are still proposed ends with empty final text, yet an assistant
message (with empty content) IS appended: afterwards the conversation's
message sequence is [user "hi", assistant ""], not the [user "hi"] it held
after the user message was appended. -/
theorem c3_nonstream_appends_empty_counterexample :
    (AgentService.processMessage llmAlwaysTool wBase 7 "+15551234567" "hi"
        (some 1) 9).map
      (fun out => (out.2.1,
        (ConversationRepository.findById out.1.conversations 1).map
          (fun c => c.messages.map (fun m => (m.role, m.content)))))
      = some ("", some [(Role.user, "hi"), (Role.assistant, "")])
    ∧ ((ConversationRepository.appendMessage wBase.conversations 1 Role.user
        "hi" 9).1).map (fun c => c.messages.map (fun m => (m.role, m.content)))
      = [[(Role.user, "hi")]] := by
  constructor
  · rfl
  · rfl

/-- C3 amended: in the streaming loop, a run that ends with empty final text
appends nothing — the conversation store equals its state just after the user
message was appended; the non-streaming loop instead persists the assistant
reply unconditionally, appending an assistant message even when the final
text is empty. -/
theorem c3_empty_final_text_amended (llms : List ChatMsg → Option AIMsg)
    (llm : List ChatMsg → AIMsg) (w : World) (userId : Nat)
    (phoneNumber message : String) (cid : Option Nat) (now : Time)
    (w1 : World) (conv : Conversation)
    (hres : AgentService.resolveConversation w userId phoneNumber cid now
      = some (w1, conv)) :
    (∀ (w' : World) (resp : String) (calls : Nat),
        AgentService.processMessageStream llms w userId phoneNumber message
          cid now = some (w', resp, calls) →
        resp = "" →
        w'.conversations = (ConversationRepository.appendMessage
          w1.conversations conv.id Role.user message now).1)
    ∧ (∀ (w' : World) (resp : String) (calls : Nat),
        AgentService.processMessage llm w userId phoneNumber message cid now
          = some (w', resp, calls) →
        w'.conversations = (ConversationRepository.appendMessage
          ((ConversationRepository.appendMessage w1.conversations conv.id
            Role.user message now).1)
          conv.id Role.assistant resp now).1) := by
  constructor
  · intro w' resp calls hrun hempty
    simp only [AgentService.processMessageStream, hres] at hrun
    have h := Option.some.inj hrun
    have hw := congrArg Prod.fst h
    have hr := congrArg (fun t : World × String × Nat => t.2.1) h
    simp only at hw hr
    subst hw
    have hfr := hr.trans hempty
    rw [if_neg (not_not_intro hfr)]
    exact AgentService.agentLoopStream_conversations llms _ now 5 _ 0
  · intro w' resp calls hrun
    simp only [AgentService.processMessage, hres] at hrun
    have h := Option.some.inj hrun
    have hw := congrArg Prod.fst h
    have hr := congrArg (fun t : World × String × Nat => t.2.1) h
    simp only at hw hr
    subst hw
    rw [← hr]
    have hloop := AgentService.agentLoop_conversations llm
      ⟨userId, conv.id, phoneNumber⟩ now 5
      ⟨{ w1 with conversations := (ConversationRepository.appendMessage
          w1.conversations conv.id Role.user message now).1 },
        AgentService.initialMessages conv message now, ""⟩ 0
    simp only
    rw [hloop]

/-- The world produced by the concrete budget-exhausting streaming run. -/
def c3StreamWorld : World :=
  match AgentService.processMessageStream llmsAlwaysTool wBase 7
      "+15551234567" "hi" (some 1) 9 with
  | some out => out.1
  | none => wBase

/-- The world produced by the concrete budget-exhausting non-streaming run. -/
def c3PlainWorld : World :=
  match AgentService.processMessage llmAlwaysTool wBase 7 "+15551234567" "hi"
      (some 1) 9 with
  | some out => out.1
  | none => wBase

/-- C3 witness: the amended claim evaluated on the concrete budget-exhausting
runs — the streaming run leaves the store at the post-user-append state, the
non-streaming run additionally appends an empty assistant message. -/
theorem c3_empty_final_text_witness :
    AgentService.resolveConversation wBase 7 "+15551234567" (some 1) 9
      = some (wBase, cBase) ∧
    c3StreamWorld.conversations = (ConversationRepository.appendMessage
      wBase.conversations cBase.id Role.user "hi" 9).1 ∧
    c3PlainWorld.conversations = (ConversationRepository.appendMessage
      ((ConversationRepository.appendMessage wBase.conversations cBase.id
        Role.user "hi" 9).1) cBase.id Role.assistant "" 9).1 :=
  ⟨rfl,
    (c3_empty_final_text_amended llmsAlwaysTool llmAlwaysTool wBase 7
        "+15551234567" "hi" (some 1) 9 wBase cBase rfl).1
      c3StreamWorld "" 5 rfl rfl,
    (c3_empty_final_text_amended llmsAlwaysTool llmAlwaysTool wBase 7
        "+15551234567" "hi" (some 1) 9 wBase cBase rfl).2
      c3PlainWorld "" 5 rfl⟩

/-- The existing conversation whose prior history has two messages, and the
world holding it; the failing input of the first-round-prompt claim. -/
def histConv : Conversation :=
  ⟨1, 7, none, "hello",
    [⟨Role.user, "hello", 1⟩, ⟨Role.assistant, "hi there", 2⟩], 1, 2, 2⟩

def histWorld : World := ⟨[histConv], [], 100, 100⟩

/-- C1 (code bug, evaluated at the failing input): on an existing
conversation whose prior history is [user "hello", assistant "hi there"],
the first-round message list the loop sends is
[system, user "hello", user "hey"] — the prior assistant message is missing,
because the prompt is built from the stale in-memory conversation (which does
not yet contain the appended user message, since `appendMessage` re-fetches
internally) and `slice(0, -1)` therefore removes the last real history entry
instead of the just-appended user message. -/
theorem c1_first_round_prompt_drops_last_message :
    AgentService.resolveConversation histWorld 7 "+15551234567" (some 1) 5
      = some (histWorld, histConv)
    ∧ AgentService.initialMessages histConv "hey" 5
      = [ChatMsg.system (AgentService.systemPrompt 5), ChatMsg.human "hello",
          ChatMsg.human "hey"]
    ∧ ChatMsg.ai ⟨"hi there", []⟩ ∉ AgentService.initialMessages histConv "hey" 5 := by
  refine ⟨rfl, rfl, by decide⟩
